import Mathlib

/-!
Shallow embedding of the finance tracker's ledger query and aggregation
engine (`finance_manager.py`): the transaction store, the filtered query
(`DatabaseManager.get_all_transactions`), deletion
(`DatabaseManager.delete_transaction`), creation-time validation
(`FinanceApp.add_transaction_handler`), filter validation
(`FinanceApp.load_transactions`), the running-balance pipeline
(`FinanceApp._prepare_data_for_plots`), the summary calculator
(`FinanceApp.calculate_summary_stats`) and the category aggregation
(`FinanceApp.plot_category_summary`).

Amounts (SQLite REAL currency values) are embedded as rationals; dates are
the stored `YYYY-MM-DD` strings, compared lexicographically exactly as
SQLite compares TEXT columns.
-/

namespace FinanceTracker

/-- Transaction kind, stored as TEXT `'Income'` / `'Expense'` in the DB. -/
inductive TType where
  | income
  | expense
deriving DecidableEq, Repr

/-- The TEXT value stored in the `type` column. -/
def TType.str : TType → String
  | .income => "Income"
  | .expense => "Expense"

/-- A row of the `transactions` table. -/
structure Transaction where
  id : Nat
  date : String
  type : TType
  category : String
  amount : ℚ
  description : String
deriving DecidableEq, Repr

/-! ### Date validation (`datetime.strptime(s, "%Y-%m-%d")`)

CPython parses the string with the regex built by `_strptime.TimeRE`:
`%Y` is `\d\d\d\d` (exactly four digits), `%m` is
`1[0-2]|0[1-9]|[1-9]` and `%d` is `3[0-1]|[1-2]\d|0[1-9]|[1-9]| [1-9]`
(a zero-padded pair, a bare single digit, or — for the day only — a
space-padded single digit), the two `-` are literal, and the whole string
must be consumed. The parsed numbers are then fed to the `datetime`
constructor, which rejects year `0000` (`MINYEAR` is 1) and any day
beyond the month's length in that year (Gregorian leap rule). None of the
component patterns can match `'-'`, so a full-string regex match is the
same as splitting at the dashes and matching each of the three segments.
Digits are modelled as ASCII digits, the digits these date strings are
written with. Implemented over the character list so all checks compute
structurally. -/

/-- Split a character list at every `'-'`, keeping empty segments. -/
def splitDashes : List Char → List (List Char)
  | [] => [[]]
  | c :: rest =>
    match splitDashes rest with
    | [] => if c = '-' then [[], []] else [[c]]
    | seg :: segs => if c = '-' then [] :: seg :: segs else (c :: seg) :: segs

/-- All characters are ASCII digits. -/
def allDigits (cs : List Char) : Bool := cs.all Char.isDigit

/-- Numeric value of a digit list (most significant first). -/
def digitsToNat (cs : List Char) : Nat :=
  cs.foldl (fun acc c => acc * 10 + (c.toNat - '0'.toNat)) 0

/-- Gregorian leap-year rule. -/
def isLeap (y : Nat) : Bool := (y % 4 == 0 && y % 100 != 0) || y % 400 == 0

/-- Days in a month of a given year. -/
def daysInMonth (y m : Nat) : Nat :=
  if m = 2 then (if isLeap y then 29 else 28)
  else if m = 4 || m = 6 || m = 9 || m = 11 then 30
  else 31

/-- The `%Y` pattern: exactly four digits. -/
def matchYear (y : List Char) : Bool := y.length == 4 && allDigits y

/-- The `%m` pattern `1[0-2]|0[1-9]|[1-9]` (the segment must be consumed
whole, so a two-character segment must match a two-character branch). -/
def matchMonth (m : List Char) : Bool :=
  match m with
  | [a] => decide ('1' ≤ a) && decide (a ≤ '9')
  | [a, b] =>
    (decide (a = '1') && decide ('0' ≤ b) && decide (b ≤ '2')) ||
    (decide (a = '0') && decide ('1' ≤ b) && decide (b ≤ '9'))
  | _ => false

/-- The `%d` pattern `3[0-1]|[1-2]\d|0[1-9]|[1-9]| [1-9]`: the only
component that also admits a space-padded single digit. -/
def matchDay (d : List Char) : Bool :=
  match d with
  | [a] => decide ('1' ≤ a) && decide (a ≤ '9')
  | [a, b] =>
    (decide (a = '3') && (decide (b = '0') || decide (b = '1'))) ||
    ((decide (a = '1') || decide (a = '2')) && b.isDigit) ||
    (decide (a = '0') && decide ('1' ≤ b) && decide (b ≤ '9')) ||
    (decide (a = ' ') && decide ('1' ≤ b) && decide (b ≤ '9'))
  | _ => false

/-- The digit characters of a matched `%d` segment (dropping the optional
leading space). -/
def dayDigits (d : List Char) : List Char :=
  match d with
  | ' ' :: rest => rest
  | _ => d

/-- Models success of `datetime.strptime(s, "%Y-%m-%d")`: the format
regex must consume the whole string, then the `datetime` constructor
requires a year of at least 1 and a day within the month. (`%m` only
matches months 1–12 and `%d` only days 1–31, so those bounds need no
separate check.) -/
def isValidDate (s : String) : Bool :=
  match splitDashes s.toList with
  | [y, m, d] =>
    matchYear y && matchMonth m && matchDay d &&
    (let yn := digitsToNat y
     let mn := digitsToNat m
     let dn := digitsToNat (dayDigits d)
     decide (1 ≤ yn) && decide (dn ≤ daysInMonth yn mn))
  | _ => false

/-! ### String comparison

SQLite compares TEXT values bytewise; for the ASCII `YYYY-MM-DD` strings
stored here that is plain lexicographic comparison, implemented
structurally on the character list. -/

/-- Lexicographic strict comparison of character lists. -/
def lexLt : List Char → List Char → Bool
  | [], [] => false
  | [], _ :: _ => true
  | _ :: _, [] => false
  | a :: as, b :: bs => decide (a < b) || (decide (a = b) && lexLt as bs)

/-- Strict bytewise comparison of strings, as SQLite orders TEXT. -/
def strLtb (a b : String) : Bool := lexLt a.toList b.toList

/-- Non-strict bytewise comparison of strings. -/
def strLeb (a b : String) : Bool := strLtb a b || a == b

theorem lexLt_irrefl : ∀ as, lexLt as as = false
  | [] => rfl
  | a :: as => by simp [lexLt, lexLt_irrefl as]

theorem lexLt_trans : ∀ as bs cs, lexLt as bs = true → lexLt bs cs = true →
    lexLt as cs = true
  | [], _ :: _, _ :: _, _, _ => rfl
  | a :: as, b :: bs, c :: cs, h1, h2 => by
    simp only [lexLt, Bool.or_eq_true, Bool.and_eq_true, decide_eq_true_eq]
      at h1 h2 ⊢
    rcases h1 with h1 | ⟨h1, h1'⟩
    · rcases h2 with h2 | ⟨h2, _⟩
      · exact Or.inl (h1.trans h2)
      · exact Or.inl (h2 ▸ h1)
    · rcases h2 with h2 | ⟨h2, h2'⟩
      · exact Or.inl (h1 ▸ h2)
      · exact Or.inr ⟨h1.trans h2, lexLt_trans as bs cs h1' h2'⟩

theorem lexLt_conn : ∀ as bs, lexLt as bs = false → lexLt bs as = false →
    as = bs
  | [], [], _, _ => rfl
  | [], _ :: _, h, _ => by simp [lexLt] at h
  | _ :: _, [], _, h => by simp [lexLt] at h
  | a :: as, b :: bs, h1, h2 => by
    simp only [lexLt, Bool.or_eq_false_iff, Bool.and_eq_false_iff,
      decide_eq_false_iff_not] at h1 h2
    have hab : a = b := by
      rcases lt_trichotomy a b with h | h | h
      · exact absurd h h1.1
      · exact h
      · exact absurd h h2.1
    subst hab
    rcases h1.2 with h | h
    · simp at h
    · rcases h2.2 with h' | h'
      · simp at h'
      · exact congrArg (a :: ·) (lexLt_conn as bs h h')

theorem lexLt_asymm (as bs : List Char) (h : lexLt as bs = true) :
    lexLt bs as = false := by
  cases heq : lexLt bs as with
  | false => rfl
  | true => exact absurd (lexLt_trans as bs as h heq) (by simp [lexLt_irrefl])

theorem strLt_asymm (a b : String) (h : strLtb a b = true) :
    strLtb b a = false := lexLt_asymm _ _ h

theorem strLt_irrefl (a : String) : strLtb a a = false := lexLt_irrefl _

theorem str_eq_of_toList_eq {a b : String} (h : a.toList = b.toList) :
    a = b := by
  cases a; cases b; exact congrArg String.mk (by simpa [String.toList] using h)

theorem strLt_conn {a b : String} (h1 : strLtb a b = false)
    (h2 : strLtb b a = false) : a = b :=
  str_eq_of_toList_eq (lexLt_conn _ _ h1 h2)

theorem strLt_trans {a b c : String} (h1 : strLtb a b = true)
    (h2 : strLtb b c = true) : strLtb a c = true :=
  lexLt_trans _ _ _ h1 h2

theorem strLeb_total (a b : String) : strLeb a b = true ∨ strLeb b a = true := by
  by_cases h1 : strLtb a b = true
  · exact Or.inl (by simp [strLeb, h1])
  · by_cases h2 : strLtb b a = true
    · exact Or.inr (by simp [strLeb, h2])
    · exact Or.inl (by
        simp [strLeb, strLt_conn (Bool.of_not_eq_true h1) (Bool.of_not_eq_true h2)])

theorem strLeb_trans {a b c : String} (h1 : strLeb a b = true)
    (h2 : strLeb b c = true) : strLeb a c = true := by
  simp only [strLeb, Bool.or_eq_true, beq_iff_eq] at h1 h2 ⊢
  rcases h1 with h1 | rfl
  · rcases h2 with h2 | rfl
    · exact Or.inl (strLt_trans h1 h2)
    · exact Or.inl h1
  · exact h2

theorem strLeb_of_strLtb {a b : String} (h : strLtb a b = true) :
    strLeb a b = true := by simp [strLeb, h]

theorem strLeb_refl (a : String) : strLeb a a = true := by simp [strLeb]

theorem not_strLtb_of_strLeb {a b : String} (h : strLeb a b = true) :
    strLtb b a = false := by
  simp only [strLeb, Bool.or_eq_true, beq_iff_eq] at h
  rcases h with h | rfl
  · exact strLt_asymm _ _ h
  · exact strLt_irrefl a

/-! ### The query engine (`DatabaseManager.get_all_transactions`)

The SQL statement is built from `WHERE 1=1` plus one conjunct per truthy
criterion; a criterion equal to Python `None` or `""` is falsy and adds no
conjunct, and the type/category criteria are also skipped when `'All'`.
The result is ordered by `ORDER BY date, id`. -/

/-- `if start_date: query += " AND date >= ?"`. -/
def passStart (sd : Option String) (t : Transaction) : Bool :=
  match sd with
  | none => true
  | some s => if s = "" then true else strLeb s t.date

/-- `if end_date: query += " AND date <= ?"`. -/
def passEnd (ed : Option String) (t : Transaction) : Bool :=
  match ed with
  | none => true
  | some e => if e = "" then true else strLeb t.date e

/-- `if trans_type and trans_type != 'All': query += " AND type = ?"`. -/
def passType (tt : Option String) (t : Transaction) : Bool :=
  match tt with
  | none => true
  | some s => if s = "" || s = "All" then true else decide (t.type.str = s)

/-- `if category and category != 'All': query += " AND category = ?"`. -/
def passCategory (cat : Option String) (t : Transaction) : Bool :=
  match cat with
  | none => true
  | some c => if c = "" || c = "All" then true else decide (t.category = c)

/-- The full `WHERE` clause of `get_all_transactions`. -/
def matchesFilters (sd ed tt cat : Option String) (t : Transaction) : Bool :=
  passStart sd t && passEnd ed t && passType tt t && passCategory cat t

/-- `ORDER BY date, id`: date ascending, id as tie-break (SQLite compares
the TEXT `date` column bytewise, i.e. lexicographically). -/
def txLe (t u : Transaction) : Prop :=
  strLtb t.date u.date = true ∨ (t.date = u.date ∧ t.id ≤ u.id)

instance : DecidableRel txLe := fun t u =>
  inferInstanceAs
    (Decidable (strLtb t.date u.date = true ∨ (t.date = u.date ∧ t.id ≤ u.id)))

instance : IsTotal Transaction txLe where
  total t u := by
    by_cases h1 : strLtb t.date u.date = true
    · exact Or.inl (Or.inl h1)
    · by_cases h2 : strLtb u.date t.date = true
      · exact Or.inr (Or.inl h2)
      · have he : t.date = u.date :=
          strLt_conn (Bool.of_not_eq_true h1) (Bool.of_not_eq_true h2)
        rcases Nat.le_total t.id u.id with h3 | h3
        · exact Or.inl (Or.inr ⟨he, h3⟩)
        · exact Or.inr (Or.inr ⟨he.symm, h3⟩)

instance : IsTrans Transaction txLe where
  trans t u v htu huv := by
    rcases htu with h1 | ⟨h1, h1'⟩
    · rcases huv with h2 | ⟨h2, _⟩
      · exact Or.inl (strLt_trans h1 h2)
      · exact Or.inl (h2 ▸ h1)
    · rcases huv with h2 | ⟨h2, h2'⟩
      · exact Or.inl (h1 ▸ h2)
      · exact Or.inr ⟨h1.trans h2, h1'.trans h2'⟩

/-- `get_all_transactions`: filter the store by the truthy criteria and
return the rows ordered by `(date, id)`. -/
def getAllTransactions (store : List Transaction)
    (sd ed tt cat : Option String) : List Transaction :=
  List.insertionSort txLe (store.filter (matchesFilters sd ed tt cat))

/-! ### Deletion (`DatabaseManager.delete_transaction`)

`DELETE FROM transactions WHERE id = ?` followed by `return True`: the
statement succeeds (and the method reports success) whether or not any row
matched. -/

/-- `delete_transaction`: result flag and resulting store contents. -/
def deleteTransaction (store : List Transaction) (i : Nat) :
    Bool × List Transaction :=
  (true, store.filter (fun t => decide (t.id ≠ i)))

/-! ### Insertion (`DatabaseManager.add_transaction` and
`FinanceApp.add_transaction_handler`) -/

/-- Largest id present in the store (`INTEGER PRIMARY KEY` auto-assigns
one larger on insert). -/
def maxId (store : List Transaction) : Nat :=
  store.foldr (fun t acc => max t.id acc) 0

/-- `add_transaction`: append the new row with a fresh id. -/
def addTransaction (store : List Transaction) (date : String) (ty : TType)
    (cat : String) (amount : ℚ) (desc : String) : List Transaction :=
  store ++ [⟨maxId store + 1, date, ty, cat, amount, desc⟩]

/-- `add_transaction_handler`: `strptime` must accept the date, the amount
must be positive and the category non-empty, in that order; any failure
raises `ValueError` (shown as an input error) and nothing is inserted,
modelled as `none`. On success the insert proceeds. -/
def addTransactionHandler (store : List Transaction) (dateStr : String)
    (ty : TType) (cat : String) (amount : ℚ) (desc : String) :
    Option (List Transaction) :=
  if ¬ isValidDate dateStr then none
  else if amount ≤ 0 then none
  else if cat = "" then none
  else some (addTransaction store dateStr ty cat amount desc)

/-! ### Filter validation (`FinanceApp.load_transactions`)

The filter fields are strings (possibly empty). Each non-empty date field
must parse with `strptime("%Y-%m-%d")`; on failure a "Filter Error" dialog
is shown and the query is not run (`none`). Otherwise the query runs with
the raw field values (category is never passed, so it defaults to `None`).
No comparison between `start_date` and `end_date` is performed. -/

/-- `load_transactions`: `some` of the fetched rows, or `none` when the
filter-date validation fails. -/
def loadTransactions (store : List Transaction) (sd ed tt : String) :
    Option (List Transaction) :=
  if sd ≠ "" ∧ ¬ isValidDate sd then none
  else if ed ≠ "" ∧ ¬ isValidDate ed then none
  else some (getAllTransactions store (some sd) (some ed) (some tt) none)

/-! ### The running-balance pipeline (`FinanceApp._prepare_data_for_plots`)

The fetched rows get a `signed_amount` column (`-amount` for `'Expense'`
rows, `amount` otherwise), are sorted by `date`, and a `running_balance`
column is the cumulative sum of `signed_amount`. -/

/-- `signed_amount = -amount if type == 'Expense' else amount`. -/
def signedAmount (t : Transaction) : ℚ :=
  if t.type.str = "Expense" then -t.amount else t.amount

/-- `df.sort_values(by='date')`: order on rows used by the pipeline. -/
def dateLe (t u : Transaction) : Prop := strLeb t.date u.date = true

instance : DecidableRel dateLe := fun t u =>
  inferInstanceAs (Decidable (strLeb t.date u.date = true))

instance : IsTotal Transaction dateLe where
  total t u := strLeb_total t.date u.date

instance : IsTrans Transaction dateLe where
  trans _ _ _ h1 h2 := strLeb_trans h1 h2

/-- One row of the prepared DataFrame. -/
structure Row where
  tx : Transaction
  signed_amount : ℚ
  running_balance : ℚ
deriving DecidableEq, Repr

/-- Cumulative-sum construction of the DataFrame rows
(`df['running_balance'] = df['signed_amount'].cumsum()`). -/
def buildRows (acc : ℚ) : List Transaction → List Row
  | [] => []
  | t :: ts =>
    ⟨t, signedAmount t, acc + signedAmount t⟩ ::
      buildRows (acc + signedAmount t) ts

/-- The DataFrame pipeline applied to fetched rows: empty fetch short-
circuits to an empty frame; otherwise add the signed column, sort by date
and take cumulative sums. -/
def makeDf (ts : List Transaction) : List Row :=
  if ts.isEmpty then [] else buildRows 0 (List.insertionSort dateLe ts)

/-- `_prepare_data_for_plots(for_plots=True)`: the fetch uses the raw
filter-field strings (category is not passed). -/
def prepareDataFiltered (store : List Transaction) (sd ed tt : String) :
    List Row :=
  makeDf (getAllTransactions store (some sd) (some ed) (some tt) none)

/-- `_prepare_data_for_plots(for_plots=False)`: the fetch uses
`None, None, 'All'` — the whole store, regardless of the filter fields. -/
def prepareDataAll (store : List Transaction) : List Row :=
  makeDf (getAllTransactions store none none (some "All") none)

/-! ### Summary calculator (`FinanceApp.calculate_summary_stats`) -/

/-- The three headline figures. -/
structure SummaryStats where
  total_income : ℚ
  total_expense : ℚ
  net_worth : ℚ
deriving DecidableEq, Repr

/-- `calculate_summary_stats`: sums of the `amount` column over the
`'Income'` and the `'Expense'` rows of the full-store frame (`0` and `0`
when the frame is empty), with `net_worth` their difference. The app's
filter fields are in scope but never consulted. -/
def calculateSummaryStats (store : List Transaction)
    (fsd fed ftt : String) : SummaryStats :=
  let df := prepareDataAll store
  let ti : ℚ := if df.isEmpty then 0 else
    (((df.filter (fun r => decide (r.tx.type.str = "Income"))).map
      (fun r => r.tx.amount)).sum)
  let te : ℚ := if df.isEmpty then 0 else
    (((df.filter (fun r => decide (r.tx.type.str = "Expense"))).map
      (fun r => r.tx.amount)).sum)
  ⟨ti, te, ti - te⟩

/-! ### Category aggregation (`FinanceApp.plot_category_summary`)

`df[df['type'] == K].groupby('category')['amount'].sum()` produces one sum
per category with the index sorted ascending (pandas `groupby` sorts its
keys); `.sort_values(ascending=False)` then orders by summed value — pandas
implements a descending sort by reversing the ascending argsort, so tied
sums come out in reverse index order. `.head(5)` keeps the top five. -/

/-- Comparison by summed amount for the value sort. -/
def sumLe (a b : String × ℚ) : Prop := a.2 ≤ b.2

instance : DecidableRel sumLe := fun a b =>
  inferInstanceAs (Decidable (a.2 ≤ b.2))

instance : IsTotal (String × ℚ) sumLe where
  total a b := le_total a.2 b.2

instance : IsTrans (String × ℚ) sumLe where
  trans _ _ _ h1 h2 := le_trans h1 h2

/-- Ascending bytewise order on category names, as `groupby` sorts its
keys. -/
def strLeRel (a b : String) : Prop := strLeb a b = true

instance : DecidableRel strLeRel := fun a b =>
  inferInstanceAs (Decidable (strLeb a b = true))

instance : IsTotal String strLeRel where
  total a b := strLeb_total a b

instance : IsTrans String strLeRel where
  trans _ _ _ h1 h2 := strLeb_trans h1 h2

/-- The distinct categories among the rows of one kind, in ascending key
order (pandas `groupby` sorts its keys). -/
def groupCats (ts : List Transaction) (key : String) : List String :=
  List.insertionSort strLeRel
    (((ts.filter (fun t => decide (t.type.str = key))).map
      (fun t => t.category)).dedup)

/-- The summed amount of one category among the rows of one kind. -/
def catSum (ts : List Transaction) (key c : String) : ℚ :=
  (((ts.filter (fun t => decide (t.type.str = key))).filter
    (fun t => decide (t.category = c))).map (fun t => t.amount)).sum

/-- `groupby('category')['amount'].sum()` over the rows of one kind:
one `(category, sum)` pair per distinct category, keys ascending. -/
def groupSums (ts : List Transaction) (key : String) : List (String × ℚ) :=
  (groupCats ts key).map (fun c => (c, catSum ts key c))

/-- `.sort_values(ascending=False)`: reverse of the stable ascending
value sort. -/
def sortDescBySum (l : List (String × ℚ)) : List (String × ℚ) :=
  (List.insertionSort sumLe l).reverse

/-- The income ranking (`income_summary` before `.head`). -/
def incomeRanking (ts : List Transaction) : List (String × ℚ) :=
  sortDescBySum (groupSums ts "Income")

/-- The expense ranking (`expense_summary` before `.head`). -/
def expenseRanking (ts : List Transaction) : List (String × ℚ) :=
  sortDescBySum (groupSums ts "Expense")

/-- `income_summary.head(top_n)` with `top_n = 5`. -/
def topIncome (ts : List Transaction) : List (String × ℚ) :=
  (incomeRanking ts).take 5

/-- `expense_summary.head(top_n)` with `top_n = 5`. -/
def topExpense (ts : List Transaction) : List (String × ℚ) :=
  (expenseRanking ts).take 5

/-! ### Spec-side totals (§4.4, §8) used to state the claims. -/

/-- Sum of `amount` over the transactions of one stored kind. -/
def typeSum (key : String) (ts : List Transaction) : ℚ :=
  ((ts.filter (fun t => decide (t.type.str = key))).map
    (fun t => t.amount)).sum

/-- Total income of a transaction sequence. -/
def incomeTotal (ts : List Transaction) : ℚ := typeSum "Income" ts

/-- Total expense of a transaction sequence. -/
def expenseTotal (ts : List Transaction) : ℚ := typeSum "Expense" ts

/-! ## Lemmas about the balance pipeline -/

theorem txLe_imp_dateLe {t u : Transaction} (h : txLe t u) : dateLe t u := by
  rcases h with h | ⟨h, _⟩
  · exact strLeb_of_strLtb h
  · show strLeb t.date u.date = true
    rw [← h]
    exact strLeb_refl t.date

theorem sorted_dateLe_of_pairwise_txLe {ts : List Transaction}
    (h : List.Pairwise txLe ts) : List.Sorted dateLe ts :=
  h.imp txLe_imp_dateLe

@[simp] theorem buildRows_nil (acc : ℚ) : buildRows acc [] = [] := rfl

@[simp] theorem buildRows_cons (acc : ℚ) (t : Transaction)
    (ts : List Transaction) :
    buildRows acc (t :: ts) =
      ⟨t, signedAmount t, acc + signedAmount t⟩ ::
        buildRows (acc + signedAmount t) ts := rfl

theorem buildRows_length : ∀ (ts : List Transaction) (acc : ℚ),
    (buildRows acc ts).length = ts.length
  | [], _ => rfl
  | _ :: ts, acc => by simp [buildRows_length ts]

theorem buildRows_map_signed : ∀ (ts : List Transaction) (acc : ℚ),
    (buildRows acc ts).map (fun r => r.signed_amount) = ts.map signedAmount
  | [], _ => rfl
  | _ :: ts, acc => by simp [buildRows_map_signed ts]

theorem buildRows_map_tx : ∀ (ts : List Transaction) (acc : ℚ),
    (buildRows acc ts).map (fun r => r.tx) = ts
  | [], _ => rfl
  | _ :: ts, acc => by simp [buildRows_map_tx ts]

theorem buildRows_balance : ∀ (ts : List Transaction) (acc : ℚ) (i : Nat)
    (p : Row), (buildRows acc ts)[i]? = some p →
    p.running_balance = acc + ((ts.take (i + 1)).map signedAmount).sum
  | [], _, i, _, h => by simp at h
  | t :: ts, acc, 0, p, h => by
    simp only [buildRows_cons, List.getElem?_cons_zero, Option.some.injEq] at h
    subst h
    simp
  | t :: ts, acc, i + 1, p, h => by
    simp only [buildRows_cons, List.getElem?_cons_succ] at h
    have := buildRows_balance ts (acc + signedAmount t) i p h
    simp only [List.take_succ_cons, List.map_cons, List.sum_cons, this]
    ring

theorem buildRows_getLast (ts : List Transaction) (acc : ℚ) (h : ts ≠ []) :
    (buildRows acc ts).getLast?.map (fun r => r.running_balance) =
      some (acc + (ts.map signedAmount).sum) := by
  have hlen : 0 < ts.length := List.length_pos.mpr h
  have hlt : ts.length - 1 < (buildRows acc ts).length := by
    rw [buildRows_length]
    omega
  have hb := buildRows_balance ts acc (ts.length - 1) _
    (List.getElem?_eq_getElem hlt)
  rw [List.getLast?_eq_getElem?, buildRows_length,
    List.getElem?_eq_getElem hlt]
  simp only [Option.map_some']
  rw [hb, Nat.sub_add_cancel hlen, List.take_length]

theorem makeDf_of_sorted {ts : List Transaction}
    (h : List.Sorted dateLe ts) : makeDf ts = buildRows 0 ts := by
  unfold makeDf
  rcases ts with _ | ⟨t, ts⟩
  · rfl
  · rw [if_neg (by simp), h.insertionSort_eq]

theorem signedSum : ∀ ts : List Transaction,
    (ts.map signedAmount).sum = incomeTotal ts - expenseTotal ts
  | [] => by simp [incomeTotal, expenseTotal, typeSum]
  | t :: ts => by
    have ih := signedSum ts
    simp only [incomeTotal, expenseTotal, typeSum] at ih ⊢
    cases ht : t.type
    · simp [List.filter_cons, ht, TType.str, signedAmount, ih]
      ring
    · simp [List.filter_cons, ht, TType.str, signedAmount, ih]
      ring

theorem typeSum_perm (key : String) {l1 l2 : List Transaction}
    (h : l1.Perm l2) : typeSum key l1 = typeSum key l2 :=
  ((h.filter _).map _).sum_eq

theorem makeDf_getLast {ts : List Transaction} (h : ts ≠ []) :
    (makeDf ts).getLast?.map (fun r => r.running_balance) =
      some ((ts.map signedAmount).sum) := by
  unfold makeDf
  rw [if_neg (by simpa using h)]
  have hne : List.insertionSort dateLe ts ≠ [] := by
    intro hc
    apply h
    have hlen := (List.perm_insertionSort dateLe ts).length_eq
    rw [hc] at hlen
    exact List.length_eq_zero.mp hlen.symm
  rw [buildRows_getLast _ _ hne, zero_add,
    ((List.perm_insertionSort dateLe ts).map signedAmount).sum_eq]

/-! ## Lemmas about the query engine and the summary -/

theorem matchesFilters_none_all (t : Transaction) :
    matchesFilters none none (some "All") none t = true := by
  simp [matchesFilters, passStart, passEnd, passType, passCategory]

theorem matchesFilters_all_none (t : Transaction) :
    matchesFilters none none none none t = true := by
  simp [matchesFilters, passStart, passEnd, passType, passCategory]

theorem getAll_unfiltered_perm (store : List Transaction) :
    (getAllTransactions store none none (some "All") none).Perm store := by
  unfold getAllTransactions
  rw [List.filter_eq_self.mpr (fun a _ => matchesFilters_none_all a)]
  exact List.perm_insertionSort txLe store

theorem getAll_empty_criteria_perm (store : List Transaction) :
    (getAllTransactions store none none none none).Perm store := by
  unfold getAllTransactions
  rw [List.filter_eq_self.mpr (fun a _ => matchesFilters_all_none a)]
  exact List.perm_insertionSort txLe store

theorem buildRows_typeSum (key : String) : ∀ (ts : List Transaction) (acc : ℚ),
    (((buildRows acc ts).filter (fun r => decide (r.tx.type.str = key))).map
      (fun r => r.tx.amount)).sum = typeSum key ts
  | [], _ => by simp [typeSum]
  | t :: ts, acc => by
    have ih := buildRows_typeSum key ts (acc + signedAmount t)
    by_cases h : t.type.str = key <;>
      simp [List.filter_cons, h, ih, typeSum]

theorem makeDf_typeSum (key : String) (ts : List Transaction) :
    (((makeDf ts).filter (fun r => decide (r.tx.type.str = key))).map
      (fun r => r.tx.amount)).sum = typeSum key ts := by
  unfold makeDf
  rcases ts with _ | ⟨t, l⟩
  · simp [typeSum]
  · rw [if_neg (by simp), buildRows_typeSum key _ 0]
    exact typeSum_perm key (List.perm_insertionSort dateLe (t :: l))

theorem passStart_iff {sd : Option String} (hsd : sd ≠ some "")
    (t : Transaction) :
    passStart sd t = true ↔ ∀ s, sd = some s → strLeb s t.date = true := by
  cases sd with
  | none => simp [passStart]
  | some s =>
    have hs : s ≠ "" := fun hc => hsd (by rw [hc])
    simp [passStart, hs]

theorem passEnd_iff {ed : Option String} (hed : ed ≠ some "")
    (t : Transaction) :
    passEnd ed t = true ↔ ∀ e, ed = some e → strLeb t.date e = true := by
  cases ed with
  | none => simp [passEnd]
  | some e =>
    have he : e ≠ "" := fun hc => hed (by rw [hc])
    simp [passEnd, he]

theorem passType_iff {tt : Option String} (htt : tt ≠ some "")
    (t : Transaction) :
    passType tt t = true ↔ ∀ k, tt = some k → k ≠ "All" → t.type.str = k := by
  cases tt with
  | none => simp [passType]
  | some s =>
    have hs : s ≠ "" := fun hc => htt (by rw [hc])
    by_cases hAll : s = "All" <;> simp [passType, hs, hAll]

theorem passCategory_iff {cat : Option String} (hcat : cat ≠ some "")
    (t : Transaction) :
    passCategory cat t = true ↔
      ∀ c, cat = some c → c ≠ "All" → t.category = c := by
  cases cat with
  | none => simp [passCategory]
  | some c =>
    have hc : c ≠ "" := fun hcc => hcat (by rw [hcc])
    by_cases hAll : c = "All" <;> simp [passCategory, hc, hAll]

/-! ## Lemmas about the category aggregation

The value sort is the reverse of a stable ascending insertion sort, so the
entries tying on a given sum appear in the sorted output exactly as they
appear in the group list — which is in ascending key order. -/

theorem filter_orderedInsert (s : ℚ) (x : String × ℚ) :
    ∀ m : List (String × ℚ),
    (List.orderedInsert sumLe x m).filter (fun p => decide (p.2 = s)) =
      if x.2 = s then x :: m.filter (fun p => decide (p.2 = s))
      else m.filter (fun p => decide (p.2 = s))
  | [] => by
    by_cases hx : x.2 = s <;> simp [hx]
  | y :: m => by
    by_cases hxy : sumLe x y
    · rw [List.orderedInsert_of_le _ _ hxy]
      by_cases hx : x.2 = s <;> simp [hx, List.filter_cons]
    · have hy : y.2 < x.2 := lt_of_not_le hxy
      have hstep : List.orderedInsert sumLe x (y :: m) =
          y :: List.orderedInsert sumLe x m := by
        simp [List.orderedInsert, hxy]
      rw [hstep]
      by_cases hx : x.2 = s
      · have hyns : ¬ y.2 = s := by
          rw [← hx]
          exact ne_of_lt hy
        simp only [List.filter_cons, filter_orderedInsert s x m, if_pos hx,
          hyns, decide_False, decide_eq_true_eq, if_false]
        simp
      · simp only [List.filter_cons, filter_orderedInsert s x m, if_neg hx]

theorem filter_sortAsc (s : ℚ) : ∀ l : List (String × ℚ),
    (List.insertionSort sumLe l).filter (fun p => decide (p.2 = s)) =
      l.filter (fun p => decide (p.2 = s))
  | [] => rfl
  | x :: l => by
    show (List.orderedInsert sumLe x (List.insertionSort sumLe l)).filter _ = _
    rw [filter_orderedInsert s x (List.insertionSort sumLe l),
      filter_sortAsc s l]
    by_cases hx : x.2 = s <;> simp [hx, List.filter_cons]

theorem groupSums_keys_sorted (ts : List Transaction) (key : String) :
    List.Pairwise (fun p q : String × ℚ => strLtb p.1 q.1 = true)
      (groupSums ts key) := by
  have hsorted : List.Pairwise strLeRel (groupCats ts key) :=
    List.sorted_insertionSort strLeRel _
  have hnd : (groupCats ts key).Nodup :=
    (List.perm_insertionSort strLeRel _).nodup_iff.mpr
      (List.nodup_dedup _)
  have hlt : List.Pairwise (fun a b : String => strLtb a b = true)
      (groupCats ts key) := by
    refine (hsorted.and hnd).imp ?_
    rintro a b ⟨hle, hne⟩
    have hle' : strLeb a b = true := hle
    rcases (Bool.or_eq_true _ _).mp hle' with h | h
    · exact h
    · exact absurd (by simpa using h) hne
  exact List.pairwise_map.mpr (hlt.imp fun h => h)

theorem ranking_tie_desc (ts : List Transaction) (key : String)
    (a b : String × ℚ)
    (hsub : [a, b].Sublist (sortDescBySum (groupSums ts key)))
    (htie : a.2 = b.2) : strLtb b.1 a.1 = true := by
  have hrev : [b, a].Sublist (List.insertionSort sumLe (groupSums ts key)) := by
    have h := List.sublist_reverse_iff.mp hsub
    simpa using h
  have hPa : (fun p : String × ℚ => decide (p.2 = a.2)) a = true := by simp
  have hPb : (fun p : String × ℚ => decide (p.2 = a.2)) b = true := by
    simp [← htie]
  have hfsub : [b, a].Sublist
      ((List.insertionSort sumLe (groupSums ts key)).filter
        (fun p => decide (p.2 = a.2))) := by
    have h1 := hrev.filter (fun p => decide (p.2 = a.2))
    have hba : List.filter (fun p => decide (p.2 = a.2)) [b, a] = [b, a] := by
      simp [List.filter_cons, ← htie]
    rwa [hba] at h1
  rw [filter_sortAsc] at hfsub
  have hsub2 : [b, a].Sublist (groupSums ts key) :=
    hfsub.trans (List.filter_sublist _)
  have hpw := (groupSums_keys_sorted ts key).sublist hsub2
  exact (List.pairwise_cons.mp hpw).1 a (by simp)

/-! ## Claim theorems -/

/-- **C1.** For every input transaction sequence sorted per §4.1 (date
ascending, id as tie-break), the running-balance pipeline produces one row
per transaction (empty input yields empty output), each row's
`signed_amount` is the transaction's amount for Income and its negation
for Expense, each row's `running_balance` is the cumulative sum of the
signed amounts up to and including that row (so the first row's balance is
its own signed amount), and the last row's balance is the sum of all
signed amounts. -/
theorem running_balance_spec (ts : List Transaction)
    (h : List.Pairwise txLe ts) :
    (makeDf ts).length = ts.length ∧
    (ts = [] → makeDf ts = []) ∧
    (makeDf ts).map (fun r => r.signed_amount) = ts.map signedAmount ∧
    (∀ t : Transaction, signedAmount t =
      if t.type = TType.income then t.amount else -t.amount) ∧
    (∀ (i : Nat) (p : Row), (makeDf ts)[i]? = some p →
      p.running_balance = ((ts.take (i + 1)).map signedAmount).sum) ∧
    ((makeDf ts).getLast?.map (fun r => r.running_balance) =
      if ts = [] then none else some ((ts.map signedAmount).sum)) := by
  have hs := makeDf_of_sorted (sorted_dateLe_of_pairwise_txLe h)
  refine ⟨?_, ?_, ?_, ?_, ?_, ?_⟩
  · rw [hs, buildRows_length]
  · intro he; subst he; rfl
  · rw [hs, buildRows_map_signed]
  · intro t
    rcases ht : t.type with _ | _ <;> simp [signedAmount, TType.str, ht]
  · intro i p hp
    rw [hs] at hp
    simpa using buildRows_balance ts 0 i p hp
  · rcases he : ts with _ | ⟨t, l⟩
    · simp [makeDf]
    · rw [if_neg (by simp), ← he, hs,
        buildRows_getLast ts 0 (he ▸ List.cons_ne_nil t l), zero_add]

/-- Witness for C1: the spec §8 scenario, already sorted per §4.1; the
balances come out as `[1000, 600, 500]` and the last one is the total
signed sum. -/
theorem running_balance_spec_witness :
    List.Pairwise txLe
      [⟨1, "2024-01-01", .income, "Salary", 1000, ""⟩,
       ⟨2, "2024-01-02", .expense, "Rent", 400, ""⟩,
       ⟨3, "2024-01-03", .expense, "Groceries", 100, ""⟩] ∧
    ((makeDf [⟨1, "2024-01-01", .income, "Salary", 1000, ""⟩,
       ⟨2, "2024-01-02", .expense, "Rent", 400, ""⟩,
       ⟨3, "2024-01-03", .expense, "Groceries", 100, ""⟩]).length = 3 ∧
     ((makeDf [⟨1, "2024-01-01", .income, "Salary", 1000, ""⟩,
       ⟨2, "2024-01-02", .expense, "Rent", 400, ""⟩,
       ⟨3, "2024-01-03", .expense, "Groceries", 100, ""⟩]).getLast?.map
        (fun r => r.running_balance) = some 500)) := by
  have h : List.Pairwise txLe
      [⟨1, "2024-01-01", .income, "Salary", 1000, ""⟩,
       ⟨2, "2024-01-02", .expense, "Rent", 400, ""⟩,
       ⟨3, "2024-01-03", .expense, "Groceries", 100, ""⟩] := by decide
  have hc := running_balance_spec _ h
  refine ⟨h, ?_, ?_⟩
  · rw [hc.1]
    rfl
  · rw [hc.2.2.2.2.2, if_neg (by simp)]
    norm_num [signedAmount, TType.str]
    simp
    norm_num

/-- **C10.** For every non-empty transaction sequence, the final running
balance equals total income minus total expense of the sequence, and any
permutation of the input produces the same final balance (the pipeline
re-sorts by date and the total is order-independent). -/
theorem final_balance_perm_invariant (ts tsp : List Transaction)
    (h : ts ≠ []) (hp : tsp.Perm ts) :
    (makeDf ts).getLast?.map (fun r => r.running_balance) =
      some (incomeTotal ts - expenseTotal ts) ∧
    (makeDf tsp).getLast?.map (fun r => r.running_balance) =
      (makeDf ts).getLast?.map (fun r => r.running_balance) := by
  have hp' : tsp ≠ [] := by
    intro hc
    apply h
    have hlen := hp.length_eq
    rw [hc] at hlen
    exact List.length_eq_zero.mp hlen.symm
  constructor
  · rw [makeDf_getLast h, signedSum]
  · rw [makeDf_getLast h, makeDf_getLast hp', signedSum, signedSum,
      incomeTotal, expenseTotal, typeSum_perm _ hp, typeSum_perm _ hp]
    rfl

/-- **C2.** The summary is computed over the complete, unfiltered store
whatever the active filter fields hold: `total_income` is the sum of the
Income amounts of the store, `total_expense` the sum of the Expense
amounts, `net_worth` their difference, and the empty store yields
`⟨0, 0, 0⟩`. -/
theorem summary_full_store (store : List Transaction) (fsd fed ftt : String) :
    calculateSummaryStats store fsd fed ftt =
      ⟨incomeTotal store, expenseTotal store,
        incomeTotal store - expenseTotal store⟩ ∧
    calculateSummaryStats ([] : List Transaction) fsd fed ftt = ⟨0, 0, 0⟩ ∧
    (∀ gsd ged gtt : String,
      calculateSummaryStats store fsd fed ftt =
        calculateSummaryStats store gsd ged gtt) := by
  have key : ∀ st : List Transaction, calculateSummaryStats st fsd fed ftt =
      ⟨incomeTotal st, expenseTotal st, incomeTotal st - expenseTotal st⟩ := by
    intro st
    have hperm := getAll_unfiltered_perm st
    unfold calculateSummaryStats prepareDataAll
    by_cases hst : st = []
    · subst hst
      have hnil : getAllTransactions [] none none (some "All") none = [] := rfl
      simp [hnil, makeDf, incomeTotal, expenseTotal, typeSum]
    · have hne : getAllTransactions st none none (some "All") none ≠ [] := by
        intro hc
        apply hst
        have hlen := hperm.length_eq
        rw [hc] at hlen
        exact List.length_eq_zero.mp hlen.symm
      have hdfne : (makeDf (getAllTransactions st none none (some "All") none)).isEmpty = false := by
        unfold makeDf
        rw [if_neg (by simpa using hne)]
        rcases hl : List.insertionSort dateLe
            (getAllTransactions st none none (some "All") none) with _ | ⟨r, rs⟩
        · exfalso
          apply hne
          have hlen := (List.perm_insertionSort dateLe
            (getAllTransactions st none none (some "All") none)).length_eq
          rw [hl] at hlen
          exact List.length_eq_zero.mp hlen.symm
        · simp
      simp only [hdfne, Bool.false_eq_true, if_false]
      rw [makeDf_typeSum "Income", makeDf_typeSum "Expense",
        typeSum_perm "Income" hperm, typeSum_perm "Expense" hperm]
      rfl
  refine ⟨key store, ?_, fun gsd ged gtt => ?_⟩
  · rw [key []]
    simp [incomeTotal, expenseTotal, typeSum]
  · rfl

/-- **C3.** The query result is ordered by date ascending with id
ascending as tie-break; when the store's ids are distinct (as the primary
key guarantees), transactions sharing a date appear in strictly increasing
id order, i.e. insertion order. -/
theorem query_ordered (store : List Transaction)
    (sd ed tt cat : Option String) :
    List.Pairwise txLe (getAllTransactions store sd ed tt cat) ∧
    ((store.map (fun t => t.id)).Nodup →
      List.Pairwise (fun a b : Transaction => a.date = b.date → a.id < b.id)
        (getAllTransactions store sd ed tt cat)) := by
  constructor
  · exact List.sorted_insertionSort txLe _
  · intro hnd
    have hsorted : List.Pairwise txLe (getAllTransactions store sd ed tt cat) :=
      List.sorted_insertionSort txLe _
    have hnd2 : ((getAllTransactions store sd ed tt cat).map
        (fun t => t.id)).Nodup := by
      have hsub : (store.filter (matchesFilters sd ed tt cat)).Sublist store :=
        List.filter_sublist store
      have hndf : ((store.filter (matchesFilters sd ed tt cat)).map
          (fun t => t.id)).Nodup := (hsub.map _).nodup hnd
      exact ((List.perm_insertionSort txLe _).map (fun t => t.id)).nodup_iff.mpr hndf
    have hne : List.Pairwise (fun a b : Transaction => a.id ≠ b.id)
        (getAllTransactions store sd ed tt cat) :=
      (List.pairwise_map).mp hnd2
    refine (hsorted.and hne).imp ?_
    rintro a b ⟨hab, hne'⟩ hdate
    rcases hab with h | ⟨_, hle⟩
    · rw [hdate] at h
      rw [strLt_irrefl] at h
      exact absurd h (by simp)
    · exact Nat.lt_of_le_of_ne hle hne'

/-- **C4.** With meaningful criteria (no criterion is the empty string —
the UI's encoding of absence), a transaction is in the query result iff it
is in the store and satisfies every present criterion conjunctively: date
at least `start_date` (inclusive) when present, date at most `end_date`
(inclusive) when present, stored type text equal to the type criterion
when present and not `'All'`, and category equal to the category criterion
when present and not `'All'`; with no criteria at all the result is the
entire store. -/
theorem query_membership (store : List Transaction)
    (sd ed tt cat : Option String) (t : Transaction)
    (hsd : sd ≠ some "") (hed : ed ≠ some "") (htt : tt ≠ some "")
    (hcat : cat ≠ some "") :
    (t ∈ getAllTransactions store sd ed tt cat ↔
      t ∈ store ∧
      (∀ s, sd = some s → strLeb s t.date = true) ∧
      (∀ e, ed = some e → strLeb t.date e = true) ∧
      (∀ k, tt = some k → k ≠ "All" → t.type.str = k) ∧
      (∀ c, cat = some c → c ≠ "All" → t.category = c)) ∧
    (getAllTransactions store none none none none).Perm store := by
  refine ⟨?_, getAll_empty_criteria_perm store⟩
  unfold getAllTransactions
  rw [List.mem_insertionSort, List.mem_filter]
  simp only [matchesFilters, Bool.and_eq_true]
  rw [passStart_iff hsd t, passEnd_iff hed t, passType_iff htt t,
    passCategory_iff hcat t]
  tauto

/-- Witness for C4: a start-date bound equal to one transaction's date
includes it (inclusive boundary) and excludes the earlier transaction. -/
theorem query_membership_witness :
    (some "2024-01-10" ≠ some "" ∧ (none : Option String) ≠ some "" ∧
      (none : Option String) ≠ some "" ∧ (none : Option String) ≠ some "") ∧
    ((⟨2, "2024-01-10", .expense, "Rent", 5, ""⟩ : Transaction) ∈
        getAllTransactions
          [⟨1, "2024-01-09", .income, "Salary", 10, ""⟩,
           ⟨2, "2024-01-10", .expense, "Rent", 5, ""⟩]
          (some "2024-01-10") none none none ↔
      (⟨2, "2024-01-10", .expense, "Rent", 5, ""⟩ : Transaction) ∈
        [⟨1, "2024-01-09", .income, "Salary", 10, ""⟩,
         ⟨2, "2024-01-10", .expense, "Rent", 5, ""⟩] ∧
      (∀ s, (some "2024-01-10" : Option String) = some s →
        strLeb s "2024-01-10" = true) ∧
      (∀ e, (none : Option String) = some e →
        strLeb "2024-01-10" e = true) ∧
      (∀ k, (none : Option String) = some k → k ≠ "All" →
        TType.str .expense = k) ∧
      (∀ c, (none : Option String) = some c → c ≠ "All" → "Rent" = c)) := by
  refine ⟨⟨by decide, by decide, by decide, by decide⟩, ?_⟩
  exact (query_membership
    [⟨1, "2024-01-09", .income, "Salary", 10, ""⟩,
     ⟨2, "2024-01-10", .expense, "Rent", 5, ""⟩]
    (some "2024-01-10") none none none
    ⟨2, "2024-01-10", .expense, "Rent", 5, ""⟩
    (by decide) (by decide) (by decide) (by decide)).1

/-- **C9.** A criterion passed as the empty string (for the dates or the
category) or as `""`/`'All'` (for the type) is falsy or explicitly skipped
in the query builder, so the query returns exactly what it returns with
the criterion absent. -/
theorem falsy_criteria_ignored (store : List Transaction)
    (sd ed tt cat : Option String) :
    getAllTransactions store (some "") ed tt cat =
      getAllTransactions store none ed tt cat ∧
    getAllTransactions store sd (some "") tt cat =
      getAllTransactions store sd none tt cat ∧
    getAllTransactions store sd ed (some "") cat =
      getAllTransactions store sd ed none cat ∧
    getAllTransactions store sd ed (some "All") cat =
      getAllTransactions store sd ed none cat ∧
    getAllTransactions store sd ed tt (some "") =
      getAllTransactions store sd ed tt none := by
  have h1 : matchesFilters (some "") ed tt cat = matchesFilters none ed tt cat :=
    funext fun t => by simp [matchesFilters, passStart]
  have h2 : matchesFilters sd (some "") tt cat = matchesFilters sd none tt cat :=
    funext fun t => by simp [matchesFilters, passEnd]
  have h3 : matchesFilters sd ed (some "") cat = matchesFilters sd ed none cat :=
    funext fun t => by simp [matchesFilters, passType]
  have h4 : matchesFilters sd ed (some "All") cat = matchesFilters sd ed none cat :=
    funext fun t => by simp [matchesFilters, passType]
  have h5 : matchesFilters sd ed tt (some "") = matchesFilters sd ed tt none :=
    funext fun t => by simp [matchesFilters, passCategory]
  unfold getAllTransactions
  rw [h1, h2, h3, h4, h5]
  exact ⟨rfl, rfl, rfl, rfl, rfl⟩

/-- Witness for C3: a store with distinct ids and a same-date pair; the
unfiltered query returns them date-ordered and id-ordered. -/
theorem query_ordered_witness :
    (([⟨2, "2024-01-05", .expense, "Rent", 400, ""⟩,
       ⟨1, "2024-01-05", .income, "Salary", 1000, ""⟩,
       ⟨3, "2024-01-01", .income, "Salary", 5, ""⟩] :
        List Transaction).map (fun t => t.id)).Nodup ∧
    List.Pairwise (fun a b : Transaction => a.date = b.date → a.id < b.id)
      (getAllTransactions
        [⟨2, "2024-01-05", .expense, "Rent", 400, ""⟩,
         ⟨1, "2024-01-05", .income, "Salary", 1000, ""⟩,
         ⟨3, "2024-01-01", .income, "Salary", 5, ""⟩] none none none none) := by
  have hnd : (([⟨2, "2024-01-05", .expense, "Rent", 400, ""⟩,
       ⟨1, "2024-01-05", .income, "Salary", 1000, ""⟩,
       ⟨3, "2024-01-01", .income, "Salary", 5, ""⟩] :
        List Transaction).map (fun t => t.id)).Nodup := by decide
  exact ⟨hnd, (query_ordered _ none none none none).2 hnd⟩

/-- **C6.** Transaction creation is rejected (no insert) exactly when the
amount is non-positive, the category is empty, or the date fails calendar
parsing; otherwise the insert proceeds, appending the row with a fresh
id. -/
theorem add_validation (store : List Transaction) (d : String) (ty : TType)
    (c : String) (a : ℚ) (desc : String) :
    (addTransactionHandler store d ty c a desc = none ↔
      a ≤ 0 ∨ c = "" ∨ isValidDate d = false) ∧
    (addTransactionHandler store d ty c a desc = none ∨
      addTransactionHandler store d ty c a desc =
        some (store ++ [⟨maxId store + 1, d, ty, c, a, desc⟩])) := by
  unfold addTransactionHandler addTransaction
  by_cases hd : isValidDate d
  · by_cases ha : a ≤ 0
    · simp [hd, ha]
    · by_cases hc : c = "" <;> simp [hd, ha, hc]
  · simp [hd, Bool.of_not_eq_true hd]

/-- Witness for C6: a valid creation (positive amount, non-empty category,
well-formed date) is not rejected; id `1` is assigned in the empty store. -/
theorem add_validation_witness :
    (addTransactionHandler [] "2024-01-02" TType.income "Salary" 5 "" = none ↔
      (5 : ℚ) ≤ 0 ∨ ("Salary" : String) = "" ∨
        isValidDate "2024-01-02" = false) ∧
    (addTransactionHandler [] "2024-01-02" TType.income "Salary" 5 "" = none ∨
      addTransactionHandler [] "2024-01-02" TType.income "Salary" 5 "" =
        some ([] ++ [⟨maxId [] + 1, "2024-01-02", TType.income, "Salary", 5,
          ""⟩])) :=
  add_validation [] "2024-01-02" TType.income "Salary" 5 ""

/-- **C7 counterexample.** With both filter dates well-formed but
`start_date` after `end_date`, `load_transactions` does **not** raise a
filter error: the query runs (and here returns the empty listing), even
though the start date is strictly greater than the end date. -/
theorem filter_range_counterexample :
    loadTransactions [⟨1, "2024-01-05", .income, "Salary", 10, ""⟩]
      "2024-01-02" "2024-01-01" "All" ≠ none ∧
    loadTransactions [⟨1, "2024-01-05", .income, "Salary", 10, ""⟩]
      "2024-01-02" "2024-01-01" "All" = some [] ∧
    strLtb "2024-01-01" "2024-01-02" = true := by
  refine ⟨by decide, by decide, by decide⟩

/-- **C7 amended.** A filter error is raised (and the query skipped)
exactly when a non-empty filter date fails calendar parsing; an inverted
range (`start_date > end_date`) is not rejected — the query proceeds and
simply matches nothing. -/
theorem filter_validation_amended (store : List Transaction)
    (sd ed tt : String) :
    (loadTransactions store sd ed tt = none ↔
      (sd ≠ "" ∧ isValidDate sd = false) ∨
      (ed ≠ "" ∧ isValidDate ed = false)) ∧
    (sd ≠ "" → ed ≠ "" → isValidDate sd = true → isValidDate ed = true →
      strLtb ed sd = true → loadTransactions store sd ed tt = some []) := by
  constructor
  · unfold loadTransactions
    by_cases h1 : sd ≠ "" ∧ ¬ isValidDate sd = true
    · simp only [if_pos h1]
      constructor
      · intro _
        exact Or.inl ⟨h1.1, Bool.of_not_eq_true h1.2⟩
      · intro _
        trivial
    · rw [if_neg h1]
      by_cases h2 : ed ≠ "" ∧ ¬ isValidDate ed = true
      · simp only [if_pos h2]
        constructor
        · intro _
          exact Or.inr ⟨h2.1, Bool.of_not_eq_true h2.2⟩
        · intro _
          trivial
      · rw [if_neg h2]
        constructor
        · intro hc
          exact absurd hc (by simp)
        · intro hc
          rcases hc with ⟨hne, hf⟩ | ⟨hne, hf⟩
          · exact absurd ⟨hne, by simp [hf]⟩ h1
          · exact absurd ⟨hne, by simp [hf]⟩ h2
  · intro hsd hed hvs hve hlt
    unfold loadTransactions
    rw [if_neg (by simp [hvs]), if_neg (by simp [hve])]
    have hfil : store.filter
        (matchesFilters (some sd) (some ed) (some tt) none) = [] := by
      rw [List.filter_eq_nil_iff]
      intro t _ hc
      simp only [matchesFilters, Bool.and_eq_true, passStart, passEnd,
        if_neg hsd, if_neg hed] at hc
      have hse : strLeb sd ed = true := strLeb_trans hc.1.1.1 hc.1.1.2
      rw [not_strLtb_of_strLeb hse] at hlt
      exact absurd hlt (by simp)
    unfold getAllTransactions
    rw [hfil]
    rfl

/-- Witness for C7 amended: an inverted well-formed range yields the empty
listing, with no filter error. -/
theorem filter_validation_amended_witness :
    (("2024-01-02" : String) ≠ "" ∧ ("2024-01-01" : String) ≠ "" ∧
      isValidDate "2024-01-02" = true ∧ isValidDate "2024-01-01" = true ∧
      strLtb "2024-01-01" "2024-01-02" = true) ∧
    loadTransactions
      [⟨1, "2024-01-05", .income, "Salary", 10, ""⟩,
       ⟨2, "2024-01-06", .expense, "Rent", 3, ""⟩]
      "2024-01-02" "2024-01-01" "Income" = some [] := by
  refine ⟨⟨by decide, by decide, by decide, by decide, by decide⟩, ?_⟩
  exact (filter_validation_amended
    [⟨1, "2024-01-05", .income, "Salary", 10, ""⟩,
     ⟨2, "2024-01-06", .expense, "Rent", 3, ""⟩]
    "2024-01-02" "2024-01-01" "Income").2
    (by decide) (by decide) (by decide) (by decide) (by decide)

/-- **C8 counterexample.** Deleting an id that is not in the store does
**not** fail with a not-found error: the operation reports success and
leaves the store unchanged (the SQL `DELETE` simply matches no row and the
method returns `True`). -/
theorem delete_missing_counterexample :
    (deleteTransaction [⟨1, "2024-01-05", .income, "Salary", 10, ""⟩] 2).1 =
      true ∧
    (deleteTransaction [⟨1, "2024-01-05", .income, "Salary", 10, ""⟩] 2).2 =
      [⟨1, "2024-01-05", .income, "Salary", 10, ""⟩] ∧
    (∀ t ∈ ([⟨1, "2024-01-05", .income, "Salary", 10, ""⟩] :
      List Transaction), t.id ≠ 2) := by
  refine ⟨rfl, by decide, by decide⟩

/-- **C8 amended.** Delete always reports success; it removes exactly the
rows carrying the given id, and is a no-op (still reported as success)
when no stored transaction has that id. -/
theorem delete_amended (store : List Transaction) (i : Nat) :
    (deleteTransaction store i).1 = true ∧
    (∀ t : Transaction,
      t ∈ (deleteTransaction store i).2 ↔ t ∈ store ∧ t.id ≠ i) ∧
    ((∀ t ∈ store, t.id ≠ i) → (deleteTransaction store i).2 = store) := by
  refine ⟨rfl, ?_, ?_⟩
  · intro t
    simp [deleteTransaction, List.mem_filter]
  · intro h
    show store.filter (fun t => decide (t.id ≠ i)) = store
    exact List.filter_eq_self.mpr fun a ha => by simpa using h a ha

/-- Witness for C8 amended: deleting the absent id `2` from a one-element
store succeeds and leaves the store intact. -/
theorem delete_amended_witness :
    (∀ t ∈ ([⟨1, "2024-01-05", .income, "Salary", 10, ""⟩] :
      List Transaction), t.id ≠ 2) ∧
    (deleteTransaction [⟨1, "2024-01-05", .income, "Salary", 10, ""⟩] 2).2 =
      [⟨1, "2024-01-05", .income, "Salary", 10, ""⟩] := by
  refine ⟨by decide, ?_⟩
  exact (delete_amended [⟨1, "2024-01-05", .income, "Salary", 10, ""⟩] 2).2.2
    (by decide)

/-- **C5 counterexample.** Category `"A"` is encountered first in the
input (before `"B"`), the two categories tie at `100` within the income
ranking, yet the ranking lists `"B"` before `"A"`: the grouping sorts the
keys alphabetically and the descending value sort reverses them, so
first-encounter order is not preserved. -/
theorem category_tie_counterexample :
    incomeRanking
      [⟨1, "2024-01-01", .income, "A", 100, ""⟩,
       ⟨2, "2024-01-02", .income, "B", 100, ""⟩] =
      [("B", 100), ("A", 100)] ∧
    ([⟨1, "2024-01-01", .income, "A", 100, ""⟩,
      ⟨2, "2024-01-02", .income, "B", 100, ""⟩] :
        List Transaction).map (fun t => t.category) = ["A", "B"] := by
  constructor
  · simp [incomeRanking, sortDescBySum, groupSums, groupCats, catSum,
      strLeRel, sumLe, strLeb, strLtb, lexLt, TType.str, List.dedup,
      List.pwFilter]
  · rfl

/-- **C5 amended.** When two categories tie on their summed amount within
the income ranking (or within the expense ranking), they appear in
descending alphabetical (bytewise) order of category name — the reverse of
the grouping's ascending key order — regardless of the order in which they
were first encountered in the input sequence. -/
theorem category_tie_alphabetical (ts : List Transaction)
    (a b : String × ℚ) (htie : a.2 = b.2) :
    ([a, b].Sublist (incomeRanking ts) → strLtb b.1 a.1 = true) ∧
    ([a, b].Sublist (expenseRanking ts) → strLtb b.1 a.1 = true) :=
  ⟨fun hsub => ranking_tie_desc ts "Income" a b hsub htie,
   fun hsub => ranking_tie_desc ts "Expense" a b hsub htie⟩

/-- Witness for C5 amended: in the two-category tie the ranking holds
`[("B", 100), ("A", 100)]`, and indeed `"A" < "B"` bytewise. -/
theorem category_tie_alphabetical_witness :
    ((100 : ℚ) = 100) ∧
    [(("B" : String), (100 : ℚ)), ("A", 100)].Sublist
      (incomeRanking
        [⟨1, "2024-01-01", .income, "A", 100, ""⟩,
         ⟨2, "2024-01-02", .income, "B", 100, ""⟩]) ∧
    strLtb "A" "B" = true := by
  have hrank : incomeRanking
      [⟨1, "2024-01-01", .income, "A", 100, ""⟩,
       ⟨2, "2024-01-02", .income, "B", 100, ""⟩] =
      [("B", 100), ("A", 100)] := by
    simp [incomeRanking, sortDescBySum, groupSums, groupCats, catSum,
      strLeRel, sumLe, strLeb, strLtb, lexLt, TType.str, List.dedup,
      List.pwFilter]
  have hsub : [(("B" : String), (100 : ℚ)), ("A", 100)].Sublist
      (incomeRanking
        [⟨1, "2024-01-01", .income, "A", 100, ""⟩,
         ⟨2, "2024-01-02", .income, "B", 100, ""⟩]) := by
    rw [hrank]
  exact ⟨rfl, hsub,
    (category_tie_alphabetical
      [⟨1, "2024-01-01", .income, "A", 100, ""⟩,
       ⟨2, "2024-01-02", .income, "B", 100, ""⟩]
      ("B", 100) ("A", 100) rfl).1 hsub⟩

/-- Witness for C10: a two-element sequence and its swap both end at
balance `600`. -/
theorem final_balance_perm_invariant_witness :
    ([⟨2, "2024-01-02", .expense, "Rent", 400, ""⟩,
      ⟨1, "2024-01-01", .income, "Salary", 1000, ""⟩] :
        List Transaction) ≠ [] ∧
    ([⟨1, "2024-01-01", .income, "Salary", 1000, ""⟩,
      ⟨2, "2024-01-02", .expense, "Rent", 400, ""⟩] : List Transaction).Perm
      [⟨2, "2024-01-02", .expense, "Rent", 400, ""⟩,
       ⟨1, "2024-01-01", .income, "Salary", 1000, ""⟩] ∧
    (makeDf [⟨2, "2024-01-02", .expense, "Rent", 400, ""⟩,
      ⟨1, "2024-01-01", .income, "Salary", 1000, ""⟩]).getLast?.map
        (fun r => r.running_balance) =
      some (incomeTotal
        [⟨2, "2024-01-02", .expense, "Rent", 400, ""⟩,
         ⟨1, "2024-01-01", .income, "Salary", 1000, ""⟩] -
        expenseTotal
        [⟨2, "2024-01-02", .expense, "Rent", 400, ""⟩,
         ⟨1, "2024-01-01", .income, "Salary", 1000, ""⟩]) := by
  have hperm : ([⟨1, "2024-01-01", .income, "Salary", 1000, ""⟩,
      ⟨2, "2024-01-02", .expense, "Rent", 400, ""⟩] : List Transaction).Perm
      [⟨2, "2024-01-02", .expense, "Rent", 400, ""⟩,
       ⟨1, "2024-01-01", .income, "Salary", 1000, ""⟩] := .swap _ _ _
  exact ⟨by simp, hperm,
    (final_balance_perm_invariant _ _ (by simp) hperm).1⟩

end FinanceTracker
